import Mathlib

/-!
Verification of the portfolio repository: the interactive behavior of the
website script (src/script.js) and the regression-based forecasting and
scenario-analysis engine described by the design document.  The repository
ships no implementation of the engine (its design document states that the
repo gives only a prose specification of the intended behavior), so the
engine components are modelled from the specification; the website script is
embedded from its source.
-/

/-! ## Website script: theme toggle (src/script.js, initThemeToggle) -/

/-- State touched by the theme-toggle handler: the CSS class of the document
body and the value stored under the localStorage key named theme. -/
structure ThemeState where
  bodyClass : String
  storedTheme : Option String
deriving DecidableEq

/-- One click of the theme toggle, from src/script.js lines 49-54: the new
theme is light-mode when the current body class is dark-mode and dark-mode
otherwise; the new theme is written both to body.className and to
localStorage. -/
def clickTheme (s : ThemeState) : ThemeState :=
  let newTheme := if s.bodyClass = "dark-mode" then "light-mode" else "dark-mode"
  { bodyClass := newTheme, storedTheme := some newTheme }

/-- Page-load initialization from src/script.js lines 45-46: the body class
becomes the stored theme, defaulting to dark-mode when nothing is stored. -/
def initTheme (stored : Option String) : ThemeState :=
  { bodyClass := stored.getD "dark-mode", storedTheme := stored }

/-! ## Website script: smooth scrolling (src/script.js, initSmoothScroll) -/

/-- Observable outcome of one click on an in-page anchor: whether the default
navigation was prevented, and the scroll target passed to window.scrollTo
when a scroll happened. -/
structure ClickOutcome where
  prevented : Bool
  scrolledTo : Option ℤ
deriving DecidableEq

/-- One click on an anchor with the given href, from src/script.js lines
137-151.  The document is abstracted as a partial map from selector strings
to the offsetTop of the matching element.  Bare hash hrefs return before
preventDefault; otherwise the default is prevented and, when a target
element exists, the window scrolls to its offsetTop minus the 80 pixel
header offset. -/
def smoothScrollClick (doc : String → Option ℤ) (href : String) : ClickOutcome :=
  if href = "#" ∨ href = "#!" then { prevented := false, scrolledTo := none }
  else
    match doc href with
    | some top => { prevented := true, scrolledTo := some (top - 80) }
    | none => { prevented := true, scrolledTo := none }

/-! ## Forecasting engine: errors and the Time Index Builder -/

/-- Modelled from the spec: the error taxonomy of section 7 — DataError for
malformed or insufficient input, ConfigError for invalid caller parameters,
FitError for numerically degenerate fits. -/
inductive EngineError
  | dataError
  | configError
  | fitError
deriving DecidableEq

/-- Modelled from the spec: default minimum number of periods the input
range must span (Time Index Builder, section 4.1). -/
def minPeriods : ℕ := 12

/-- Modelled from the spec: look up the actual value recorded for a period
among the raw observation rows; periods are absolute month numbers. -/
def lookupVal (rows : List (ℕ × ℚ)) (p : ℕ) : Option ℚ :=
  (rows.find? (fun r => decide (r.1 = p))).map Prod.snd

/-- Modelled from the spec: a duplicate (period) pair with conflicting
values among the raw rows (Time Index Builder failure condition). -/
def hasConflict (rows : List (ℕ × ℚ)) : Bool :=
  rows.any (fun r => rows.any (fun s => decide (r.1 = s.1) && decide (r.2 ≠ s.2)))

/-- Modelled from the spec (Time Index Builder, section 4.1): reindex the
raw rows of one category to the contiguous monthly grid from start to stop;
months absent from the input are inserted with a null actual value.  Fails
with DataError when the requested range spans fewer than minPeriods months
or when duplicate periods carry conflicting values.  The repository contains
no implementation of this component, only its prose design. -/
def buildIndex (rows : List (ℕ × ℚ)) (start stop : ℕ) :
    Except EngineError (List (ℕ × Option ℚ)) :=
  if stop + 1 - start < minPeriods then .error .dataError
  else if hasConflict rows then .error .dataError
  else .ok ((List.range (stop + 1 - start)).map (fun i => (start + i, lookupVal rows (start + i))))

/-! ## Forecasting engine: Feature Engineer -/

/-- Modelled from the spec: rational approximations of the sine of the month
angle, one entry per calendar month.  The spec prescribes a periodic
sine/cosine encoding of the month; exact trigonometric values are irrational,
so a fixed rational-valued periodic table stands in for them. -/
def sinTable : List ℚ :=
  [1/2, 433/500, 1, 433/500, 1/2, 0, -1/2, -433/500, -1, -433/500, -1/2, 0]

/-- Modelled from the spec: rational approximations of the cosine of the
month angle, one entry per calendar month. -/
def cosTable : List ℚ :=
  [433/500, 1/2, 0, -1/2, -433/500, -1, -433/500, -1/2, 0, 1/2, 433/500, 1]

/-- Modelled from the spec: periodic sine encoding of the calendar month of
an absolute month number. -/
def encSin (t : ℕ) : ℚ := sinTable.getD (t % 12) 0

/-- Modelled from the spec: periodic cosine encoding of the calendar month
of an absolute month number. -/
def encCos (t : ℕ) : ℚ := cosTable.getD (t % 12) 0

/-- Modelled from the spec (Feature Engineer, section 4.2): build the
feature rows (time index, lag values newest first, target) from a reindexed
series.  A row is kept for training only when its value is present and the
full lag history of depth k is available; rows with any missing lag are
excluded, as are the reindexed placeholder months. -/
def featureRowsAux (k : ℕ) : List (ℕ × Option ℚ) → List ℚ → List (ℕ × List ℚ × ℚ)
  | [], _ => []
  | (_, none) :: rest, hist => featureRowsAux k rest hist
  | (t, some y) :: rest, hist =>
    (if k ≤ hist.length then [(t, hist.take k, y)] else []) ++ featureRowsAux k rest (y :: hist)

/-- Modelled from the spec: feature rows of a series for lag depth k. -/
def featureRows (k : ℕ) (series : List (ℕ × Option ℚ)) : List (ℕ × List ℚ × ℚ) :=
  featureRowsAux k series []

/-! ## Forecasting engine: Model Fitter -/

/-- Dot product of two coefficient lists, truncating to the shorter one. -/
def dotProd (xs ys : List ℚ) : ℚ := (List.zipWith (· * ·) xs ys).sum

/-- Modelled from the spec: the feature vector of one observation in the
fixed feature ordering — intercept, trend powers up to the polynomial
degree, periodic calendar encoding, then the lag values. -/
def featureVec (degree lagDepth : ℕ) (t : ℕ) (lags : List ℚ) : List ℚ :=
  1 :: ((List.range degree).map (fun i => ((t : ℚ)) ^ (i + 1)) ++ [encSin t, encCos t]
        ++ (List.range lagDepth).map (fun i => lags.getD i 0))

/-- Modelled from the spec (Data Model, section 3): an immutable fitted
model — its kind (polynomial degree, 1 meaning linear), its lag depth, and
the ordered coefficient sequence matching the feature ordering. -/
structure FittedModel where
  degree : ℕ
  lagDepth : ℕ
  coeffs : List ℚ
deriving DecidableEq

/-- Modelled from the spec: the model prediction for one period, the dot
product of the feature vector with the fitted coefficients. -/
def predict (m : FittedModel) (t : ℕ) (lags : List ℚ) : ℚ :=
  dotProd (featureVec m.degree m.lagDepth t lags) m.coeffs

/-- Eliminate the leading column of a row using a pivot row, for Gaussian
elimination over the rationals. -/
def elimRow (piv row : List ℚ) : List ℚ :=
  match piv, row with
  | p :: ps, x :: xs => List.zipWith (fun a b => a - x / p * b) xs ps
  | _, r => r.tail

/-- Solve a square linear system given as augmented rows by Gaussian
elimination with back substitution; returns none when no pivot is available,
i.e. when the system is singular.  The number of variables drives the
recursion. -/
def gaussSolve : ℕ → List (List ℚ) → Option (List ℚ)
  | 0, _ => some []
  | n + 1, rows =>
    match rows.findIdx? (fun r => decide (r.headD 0 ≠ 0)) with
    | none => none
    | some i =>
      let piv := rows.getD i []
      match gaussSolve n ((rows.eraseIdx i).map (elimRow piv)) with
      | none => none
      | some xs =>
        let p := piv.headD 1
        let rest := piv.tail
        let b := rest.getLastD 0
        let cs := rest.dropLast
        some ((b - (List.zipWith (· * ·) cs xs).sum) / p :: xs)

/-- Entry (i, j) of the normal matrix, the dot product of feature columns i
and j over the training rows. -/
def colDot (xs : List (List ℚ)) (i j : ℕ) : ℚ :=
  (xs.map (fun r => r.getD i 0 * r.getD j 0)).sum

/-- Entry i of the right-hand side of the normal equations, the dot product
of feature column i with the target column. -/
def colDotY (xs : List (List ℚ)) (ys : List ℚ) (i : ℕ) : ℚ :=
  (List.zipWith (fun r y => r.getD i 0 * y) xs ys).sum

/-- Number of features: intercept, trend powers, the two calendar encodings,
and the lags. -/
def numFeatures (degree lagDepth : ℕ) : ℕ := 1 + degree + 2 + lagDepth

/-- Modelled from the spec (Model Fitter, section 4.3): chronological
train/validation split keeping the last fifth of the rows (the default 20
percent) as validation. -/
def splitTrainVal (rows : List (ℕ × List ℚ × ℚ)) :
    List (ℕ × List ℚ × ℚ) × List (ℕ × List ℚ × ℚ) :=
  let v := rows.length / 5
  (rows.take (rows.length - v), rows.drop (rows.length - v))

/-- Modelled from the spec (Model Fitter, section 4.3): ordinary least
squares on the chronological training partition, solved in closed form via
the normal equations (the spec leaves closed-form versus iterative to the
implementation).  Degrees outside 1..3 are rejected with ConfigError; a
singular normal matrix (rank-deficient feature matrix) yields FitError.
The repository contains no implementation of this component. -/
def fitOLS (degree lagDepth : ℕ) (rows : List (ℕ × List ℚ × ℚ)) :
    Except EngineError FittedModel :=
  if degree = 0 ∨ 3 < degree then .error .configError
  else
    let trainRows := (splitTrainVal rows).1
    let xs := trainRows.map (fun r => featureVec degree lagDepth r.1 r.2.1)
    let ys := trainRows.map (fun r => r.2.2)
    let nf := numFeatures degree lagDepth
    let aug := (List.range nf).map (fun i =>
      ((List.range nf).map (fun j => colDot xs i j)) ++ [colDotY xs ys i])
    match gaussSolve nf aug with
    | none => .error .fitError
    | some beta => .ok ⟨degree, lagDepth, beta⟩

/-! ## Forecasting engine: Forecaster -/

/-- Modelled from the spec (Forecaster, section 4.4): recursive one-step
projection — each predicted value is fed back as the newest lag for the next
step, expressed as a bounded iteration over the horizon. -/
def projectFrom (m : FittedModel) : ℕ → List ℚ → ℕ → List ℚ
  | _, _, 0 => []
  | t, lags, n + 1 =>
    predict m t lags :: projectFrom m (t + 1) (predict m t lags :: lags) n

/-- Modelled from the spec (Forecaster, section 4.4): project a fitted model
forward over a horizon starting at absolute month t, seeded with the last
known lag values; horizons beyond 24 months are rejected with ConfigError
and produce no forecast values. -/
def forecast (m : FittedModel) (t : ℕ) (seedLags : List ℚ) (horizon : ℕ) :
    Except EngineError (List ℚ) :=
  if 24 < horizon then .error .configError
  else .ok (projectFrom m t seedLags horizon)

/-! ## Forecasting engine: Accuracy Evaluator -/

/-- Mean of a list of rationals; the empty list has mean zero because the
sum is zero and division by the zero length is zero in the rationals. -/
def listMean (xs : List ℚ) : ℚ := xs.sum / xs.length

/-- Modelled from the spec (Accuracy Evaluator, section 4.5): the evaluation
rows scored by MAPE, namely the (actual, predicted) pairs whose actual value
is nonzero. -/
def scoredRows (rows : List (ℚ × ℚ)) : List (ℚ × ℚ) :=
  rows.filter (fun p => decide (p.1 ≠ 0))

/-- Modelled from the spec: the count of evaluation rows whose actual value
is zero, reported separately from the MAPE mean. -/
def zeroActualCount (rows : List (ℚ × ℚ)) : ℕ :=
  (rows.filter (fun p => decide (p.1 = 0))).length

/-- Modelled from the spec: mean absolute percentage error over the rows
with nonzero actual value; rows with zero actual are excluded rather than
coerced to a zero error term. -/
def mape (rows : List (ℚ × ℚ)) : ℚ :=
  listMean ((scoredRows rows).map (fun p => |p.1 - p.2| / |p.1|))

/-- Modelled from the spec: mean squared error over all evaluation rows. -/
def mse (rows : List (ℚ × ℚ)) : ℚ :=
  listMean (rows.map (fun p => (p.1 - p.2) ^ 2))

/-- Modelled from the spec: root mean squared error, the square root of the
mean squared residual. -/
noncomputable def rmse (rows : List (ℚ × ℚ)) : ℝ :=
  Real.sqrt ((mse rows : ℚ) : ℝ)

/-! ## Forecasting engine: Scenario Composer -/

/-- Modelled from the spec (Scenario Composer, section 4.6): apply a
multiplicative per-period compounding adjustment to a baseline forecast.
The exponent counts periods since the horizon start beginning at one for the
first horizon period, as the worked example of the spec requires: the
baseline 100, 100, 100 with rate five percent becomes 105, 110.25,
115.7625. -/
def composeMult (baseline : List ℚ) (rate : ℚ) : List ℚ :=
  (List.range baseline.length).map (fun i => baseline.getD i 0 * (1 + rate) ^ (i + 1))

/-- Absolute divergence of the composed scenario from the baseline at a
given distance from the horizon start. -/
def scenDiv (baseline : List ℚ) (rate : ℚ) (i : ℕ) : ℚ :=
  |(composeMult baseline rate).getD i 0 - baseline.getD i 0|

/-- Round a rational to two decimal places, used only to state the worked
example of the spec. -/
def round2 (x : ℚ) : ℚ := ((x * 100 + 1/2).floor : ℚ) / 100

/-! ## Concrete instances used by the worked examples and witnesses -/

/-- Fitted model used only to instantiate witnesses at concrete inputs. -/
def mdl0 : FittedModel := ⟨1, 0, [2, 0, 0, 0]⟩

/-- Raw input of the constant-series example: 24 months, value 100. -/
def constSeriesRaw : List (ℕ × ℚ) := (List.range 24).map (fun t => (t, 100))

/-- Reindexed constant series produced by the Time Index Builder. -/
def c4Series : List (ℕ × Option ℚ) := (buildIndex constSeriesRaw 0 23).toOption.getD []

/-- Feature rows of the constant series at lag depth zero. -/
def c4Rows : List (ℕ × List ℚ × ℚ) := featureRows 0 c4Series

/-- Result of fitting the degree-1 model on the constant series. -/
def c4FitR : Except EngineError FittedModel := fitOLS 1 0 c4Rows

/-- The fitted model the constant-series example produces: intercept 100,
zero trend and zero calendar coefficients. -/
def c4Model : FittedModel := ⟨1, 0, [100, 0, 0, 0]⟩

/-- Held-out validation rows of the constant series (the last fifth). -/
def c4ValRows : List (ℕ × List ℚ × ℚ) := (splitTrainVal c4Rows).2

/-- In-sample evaluation pairs (actual, predicted) of the constant-series
example on the validation rows. -/
def c4Pairs : List (ℚ × ℚ) := c4ValRows.map (fun r => (r.2.2, predict c4Model r.1 r.2.1))

/-- Output of the Time Index Builder on the single-row witness input. -/
def c8Out : List (ℕ × Option ℚ) :=
  (List.range 12).map (fun i => (i, if i = 5 then some 7 else none))

/-! ## Helper lemmas -/

/-- Truncating a longer recursive projection reproduces the shorter one:
each step of the iteration depends only on the state accumulated so far. -/
lemma projectFrom_take (m : FittedModel) (K : ℕ) :
    ∀ (n t : ℕ) (lags : List ℚ), K ≤ n →
      (projectFrom m t lags n).take K = projectFrom m t lags K := by
  induction K with
  | zero => intro n t lags _; simp [projectFrom]
  | succ k ih =>
    intro n t lags h
    cases n with
    | zero => omega
    | succ n =>
      simp only [projectFrom, List.take_succ_cons]
      exact congrArg _ (ih n (t + 1) (predict m t lags :: lags) (by omega))

/-! ## Claims about the website script -/

/-- C9: after every click of the theme toggle the body class is exactly
dark-mode or light-mode; a click maps dark-mode to light-mode and anything
else to dark-mode, so from any post-click state two further clicks restore
the theme; and the stored theme equals the body class after the click. -/
theorem themeToggle_click (s : ThemeState) :
    ((clickTheme s).bodyClass = "dark-mode" ∨ (clickTheme s).bodyClass = "light-mode") ∧
    (clickTheme s).bodyClass =
      (if s.bodyClass = "dark-mode" then "light-mode" else "dark-mode") ∧
    (clickTheme s).storedTheme = some (clickTheme s).bodyClass ∧
    (clickTheme (clickTheme (clickTheme s))).bodyClass = (clickTheme s).bodyClass := by
  by_cases h : s.bodyClass = "dark-mode" <;> simp [clickTheme, h]

/-- C10: clicking an anchor whose href is the bare hash or hash-bang returns
early with no preventDefault and no scroll; for any other href whose target
is missing from the document, the default is prevented but no scroll is
performed. -/
theorem smoothScroll_click (doc : String → Option ℤ) (href : String) :
    (href = "#" ∨ href = "#!" →
      smoothScrollClick doc href = { prevented := false, scrolledTo := none }) ∧
    (¬(href = "#" ∨ href = "#!") → doc href = none →
      smoothScrollClick doc href = { prevented := true, scrolledTo := none }) := by
  constructor
  · intro h
    simp [smoothScrollClick, h]
  · intro h hd
    simp [smoothScrollClick, h, hd]

/-- C10 witness: the bare hash is left alone, while a missing target is
prevented without scrolling, on a document with no elements. -/
theorem smoothScroll_click_witness :
    smoothScrollClick (fun _ => none) "#" = { prevented := false, scrolledTo := none } ∧
    smoothScrollClick (fun _ => none) "#about" = { prevented := true, scrolledTo := none } :=
  ⟨(smoothScroll_click (fun _ => none) "#").1 (Or.inl rfl),
   (smoothScroll_click (fun _ => none) "#about").2 (by decide) rfl⟩

/-! ## Claims about the Forecaster -/

/-- C7: a requested horizon strictly beyond 24 months is rejected with
ConfigError and produces no forecast values, while a horizon of at most 24
months is never rejected on that account. -/
theorem forecast_horizon_bound (m : FittedModel) (t : ℕ) (lags : List ℚ) (h : ℕ) :
    (24 < h → forecast m t lags h = Except.error EngineError.configError) ∧
    (h ≤ 24 → forecast m t lags h = Except.ok (projectFrom m t lags h)) := by
  constructor
  · intro hh
    simp [forecast, hh]
  · intro hh
    simp [forecast, Nat.not_lt.2 hh]

/-- C7 witness: a 25-month horizon is rejected and a 24-month horizon is
accepted for a concrete model. -/
theorem forecast_horizon_bound_witness :
    forecast mdl0 0 [] 25 = Except.error EngineError.configError ∧
    forecast mdl0 0 [] 24 = Except.ok (projectFrom mdl0 0 [] 24) :=
  ⟨(forecast_horizon_bound mdl0 0 [] 25).1 (by decide),
   (forecast_horizon_bound mdl0 0 [] 24).2 (by decide)⟩

/-- C3: the recursive projection is truncation-consistent — for horizons
within the accepted bound, the first K values of the longer forecast equal
the K-step forecast exactly, for every fitted model and seed lag state. -/
theorem forecast_truncation_consistent (m : FittedModel) (t : ℕ) (lags : List ℚ)
    (H K : ℕ) (hK : K < H) (hH : H ≤ 24) :
    ∃ vs vsK, forecast m t lags H = Except.ok vs ∧
      forecast m t lags K = Except.ok vsK ∧ vs.take K = vsK := by
  refine ⟨projectFrom m t lags H, projectFrom m t lags K, ?_, ?_, ?_⟩
  · simp [forecast, Nat.not_lt.2 hH]
  · simp [forecast, Nat.not_lt.2 (by omega : K ≤ 24)]
  · exact projectFrom_take m K H t lags (by omega)

/-- C3 witness: forecasting two steps and truncating to one step agrees with
the one-step forecast for a concrete model. -/
theorem forecast_truncation_consistent_witness :
    ∃ vs vsK, forecast mdl0 0 [] 2 = Except.ok vs ∧
      forecast mdl0 0 [] 1 = Except.ok vsK ∧ vs.take 1 = vsK :=
  forecast_truncation_consistent mdl0 0 [] 2 1 (by decide) (by decide)

/-! ## Claims about the Scenario Composer -/

/-- The composed scenario value at distance i from the horizon start is the
baseline value scaled by the compounded rate with exponent i plus one. -/
lemma composeMult_getD (b : List ℚ) (r : ℚ) (i : ℕ) (h : i < b.length) :
    (composeMult b r).getD i 0 = b.getD i 0 * (1 + r) ^ (i + 1) := by
  simp [composeMult, List.getD_eq_getElem?_getD, List.getElem?_map, List.getElem?_range, h]

/-- The absolute divergence factors as the baseline magnitude times the
distance of the compounded rate from one. -/
lemma scenDiv_eq (b : List ℚ) (r : ℚ) (i : ℕ) (h : i < b.length) :
    scenDiv b r i = |b.getD i 0| * |(1 + r) ^ (i + 1) - 1| := by
  rw [scenDiv, composeMult_getD b r i h,
    show b.getD i 0 * (1 + r) ^ (i + 1) - b.getD i 0
      = b.getD i 0 * ((1 + r) ^ (i + 1) - 1) by ring, abs_mul]

/-- For a growth factor that is at least zero, the distance of its powers
from one is monotone in the exponent. -/
lemma abs_pow_sub_one_mono (r : ℚ) (hr : -1 ≤ r) {i j : ℕ} (hij : i ≤ j) :
    |(1 + r) ^ (i + 1) - 1| ≤ |(1 + r) ^ (j + 1) - 1| := by
  rcases le_or_lt 1 (1 + r) with h1 | h1
  · have hi : (1 : ℚ) ≤ (1 + r) ^ (i + 1) := one_le_pow₀ h1
    have hj : (1 : ℚ) ≤ (1 + r) ^ (j + 1) := one_le_pow₀ h1
    have hpow : (1 + r) ^ (i + 1) ≤ (1 + r) ^ (j + 1) := pow_le_pow_right₀ h1 (by omega)
    rw [abs_of_nonneg (by linarith), abs_of_nonneg (by linarith)]
    linarith
  · have h0 : (0 : ℚ) ≤ 1 + r := by linarith
    have hle : (1 + r) ≤ 1 := le_of_lt h1
    have hi : (1 + r) ^ (i + 1) ≤ 1 := pow_le_one₀ h0 hle
    have hj : (1 + r) ^ (j + 1) ≤ 1 := pow_le_one₀ h0 hle
    have hpow : (1 + r) ^ (j + 1) ≤ (1 + r) ^ (i + 1) := pow_le_pow_of_le_one h0 hle (by omega)
    rw [abs_of_nonpos (by linarith), abs_of_nonpos (by linarith)]
    linarith

/-- C1: the Scenario Composer compounds the multiplicative rate period by
period, with the exponent counting one at the first horizon period as the
worked example of the spec requires; in particular the baseline 100, 100,
100 at rate five percent rounds to 105, 110.25, 115.76. -/
theorem scenario_compound_formula (b : List ℚ) (r : ℚ) (i : ℕ) (h : i < b.length) :
    (composeMult b r).getD i 0 = b.getD i 0 * (1 + r) ^ (i + 1) ∧
    (composeMult [100, 100, 100] (5/100)).map round2 = [105, 441/4, 2894/25] :=
  ⟨composeMult_getD b r i h, by with_unfolding_all rfl⟩

/-- C1 witness: the compounding formula instantiated at a one-element
baseline, together with the worked example. -/
theorem scenario_compound_formula_witness :
    (composeMult [2] 3).getD 0 0 = ([2] : List ℚ).getD 0 0 * (1 + 3) ^ (0 + 1) ∧
    (composeMult [100, 100, 100] (5/100)).map round2 = [105, 441/4, 2894/25] :=
  scenario_compound_formula [2] 3 0 (by decide)

/-- C5 counterexample: at a zero first baseline value the scenario equals
the baseline although the rate is nonzero, and at rate minus two the
divergence strictly decreases from the first to the second period even on a
constant baseline — so the claim fails as universally stated. -/
theorem scenario_divergence_cex :
    ((composeMult [0] 1).getD 0 0 = ([0] : List ℚ).getD 0 0 ∧ (1 : ℚ) ≠ 0) ∧
    scenDiv [100, 100] (-2) 1 < scenDiv [100, 100] (-2) 0 := by
  refine ⟨⟨by with_unfolding_all rfl, by norm_num⟩, by with_unfolding_all decide⟩

/-- C5 amended: when the baseline value at the horizon start is nonzero,
the scenario equals the baseline there exactly when the rate is zero; and
for a nonzero rate of at least minus one, the divergence is monotonically
non-decreasing in the distance from the horizon start provided the baseline
magnitude is itself non-decreasing. -/
theorem scenario_divergence_amended (b : List ℚ) (r : ℚ) :
    (b.getD 0 0 ≠ 0 → ((composeMult b r).getD 0 0 = b.getD 0 0 ↔ r = 0)) ∧
    (r ≠ 0 → -1 ≤ r →
      (∀ i j, i ≤ j → j < b.length → |b.getD i 0| ≤ |b.getD j 0|) →
      ∀ i j, i ≤ j → j < b.length → scenDiv b r i ≤ scenDiv b r j) := by
  constructor
  · intro hb
    have hlen : 0 < b.length := by
      cases b with
      | nil => simp at hb
      | cons x xs => simp
    rw [composeMult_getD b r 0 hlen, show (0 : ℕ) + 1 = 1 from rfl, pow_one]
    constructor
    · intro h
      have h2 : b.getD 0 0 * r = 0 := by linear_combination h
      rcases mul_eq_zero.mp h2 with hb0 | hr0
      · exact absurd hb0 hb
      · exact hr0
    · intro h
      subst h
      ring
  · intro _ hr hmono i j hij hj
    have hi : i < b.length := lt_of_le_of_lt hij hj
    rw [scenDiv_eq b r i hi, scenDiv_eq b r j hj]
    exact mul_le_mul (hmono i j hij hj) (abs_pow_sub_one_mono r hr hij)
      (abs_nonneg _) (abs_nonneg _)

/-- C5 amended witness: on the constant baseline 100, 100 with rate one
tenth, equality at the first period is equivalent to the rate being zero,
and the divergence does not decrease from the first to the second period. -/
theorem scenario_divergence_amended_witness :
    ((composeMult [100, 100] (1/10)).getD 0 0 = ([100, 100] : List ℚ).getD 0 0 ↔
      (1/10 : ℚ) = 0) ∧
    scenDiv [100, 100] (1/10) 0 ≤ scenDiv [100, 100] (1/10) 1 :=
  ⟨(scenario_divergence_amended [100, 100] (1/10)).1 (by norm_num),
   (scenario_divergence_amended [100, 100] (1/10)).2 (by norm_num) (by norm_num)
     (by
       intro i j hij hj
       simp only [List.length_cons, List.length_nil] at hj
       interval_cases j <;> interval_cases i <;> norm_num)
     0 1 (by decide) (by decide)⟩

/-! ## Claims about the Accuracy Evaluator -/

/-- The mean of a list of non-negative rationals is non-negative. -/
lemma listMean_nonneg {xs : List ℚ} (h : ∀ x ∈ xs, 0 ≤ x) : 0 ≤ listMean xs :=
  div_nonneg (List.sum_nonneg h) (Nat.cast_nonneg _)

/-- A list of non-negative rationals summing to zero is all zero. -/
lemma sum_zero_all_zero : ∀ {xs : List ℚ}, (∀ x ∈ xs, 0 ≤ x) → xs.sum = 0 → ∀ x ∈ xs, x = 0 := by
  intro xs
  induction xs with
  | nil =>
    intro _ _ x hx
    simp at hx
  | cons a as ih =>
    intro hpos hsum x hx
    have ha : 0 ≤ a := hpos a (by simp)
    have has : 0 ≤ as.sum := List.sum_nonneg (fun y hy => hpos y (by simp [hy]))
    have hsum2 : a + as.sum = 0 := by simpa using hsum
    rcases List.mem_cons.mp hx with rfl | hx2
    · linarith
    · exact ih (fun y hy => hpos y (by simp [hy])) (by linarith) x hx2

/-- The mean squared error is non-negative. -/
lemma mse_nonneg (rows : List (ℚ × ℚ)) : 0 ≤ mse rows := by
  apply listMean_nonneg
  intro x hx
  rcases List.mem_map.mp hx with ⟨p, _, rfl⟩
  exact sq_nonneg _

/-- The mean squared error vanishes exactly when every prediction matches
its actual value. -/
lemma mse_eq_zero_iff (rows : List (ℚ × ℚ)) :
    mse rows = 0 ↔ ∀ p ∈ rows, p.2 = p.1 := by
  constructor
  · intro h p hp
    have hne : rows ≠ [] := by
      rintro rfl
      simp at hp
    have hlen : ((rows.length : ℚ)) ≠ 0 := by
      have h1 : 0 < rows.length := List.length_pos.mpr hne
      exact_mod_cast Nat.pos_iff_ne_zero.mp h1
    have hsum : (rows.map (fun p => (p.1 - p.2) ^ 2)).sum = 0 := by
      rcases div_eq_zero_iff.mp h with hs | hl
      · exact hs
      · exact absurd (by simpa using hl) hlen
    have hz := sum_zero_all_zero
      (fun x hx => by
        rcases List.mem_map.mp hx with ⟨q, _, rfl⟩
        exact sq_nonneg _) hsum
    have hsq : (p.1 - p.2) ^ 2 = 0 := hz _ (List.mem_map.mpr ⟨p, hp, rfl⟩)
    have hzero : p.1 - p.2 = 0 := by
      exact pow_eq_zero_iff (by norm_num) |>.mp hsq
    linarith
  · intro h
    have hs : (rows.map (fun p => (p.1 - p.2) ^ 2)).sum = 0 := by
      apply List.sum_eq_zero
      intro x hx
      rcases List.mem_map.mp hx with ⟨q, hq, rfl⟩
      rw [h q hq]
      ring
    rw [mse, listMean, hs, zero_div]

/-- The mean absolute percentage error is non-negative. -/
lemma mape_nonneg (rows : List (ℚ × ℚ)) : 0 ≤ mape rows := by
  apply listMean_nonneg
  intro x hx
  rcases List.mem_map.mp hx with ⟨p, _, rfl⟩
  exact div_nonneg (abs_nonneg _) (abs_nonneg _)

/-- Exact predictions yield a zero mean absolute percentage error. -/
lemma mape_eq_zero_of_exact {rows : List (ℚ × ℚ)} (h : ∀ p ∈ rows, p.2 = p.1) :
    mape rows = 0 := by
  have hs : ((scoredRows rows).map (fun p => |p.1 - p.2| / |p.1|)).sum = 0 := by
    apply List.sum_eq_zero
    intro x hx
    rcases List.mem_map.mp hx with ⟨q, hq, rfl⟩
    rw [h q (List.mem_of_mem_filter hq)]
    simp
  rw [mape, listMean, hs, zero_div]

/-- C2: MAPE and RMSE are both non-negative, and they vanish together
exactly when every prediction equals its actual value on the scored rows. -/
theorem accuracy_metrics_nonneg_zero_iff (rows : List (ℚ × ℚ)) :
    0 ≤ mape rows ∧ 0 ≤ rmse rows ∧
      ((mape rows = 0 ∧ rmse rows = 0) ↔ ∀ p ∈ rows, p.2 = p.1) := by
  refine ⟨mape_nonneg rows, Real.sqrt_nonneg _, ?_⟩
  constructor
  · rintro ⟨-, hr⟩
    have h1 : ((mse rows : ℚ) : ℝ) ≤ 0 := Real.sqrt_eq_zero'.mp hr
    have h2 : mse rows ≤ 0 := by exact_mod_cast h1
    exact (mse_eq_zero_iff rows).mp (le_antisymm h2 (mse_nonneg rows))
  · intro h
    refine ⟨mape_eq_zero_of_exact h, ?_⟩
    rw [rmse, (mse_eq_zero_iff rows).mpr h]
    simp

/-- C2 witness: the metrics evaluated on a concrete exact evaluation set. -/
theorem accuracy_metrics_nonneg_zero_iff_witness :
    0 ≤ mape [((2 : ℚ), (2 : ℚ))] ∧ 0 ≤ rmse [((2 : ℚ), (2 : ℚ))] ∧
      ((mape [((2 : ℚ), (2 : ℚ))] = 0 ∧ rmse [((2 : ℚ), (2 : ℚ))] = 0) ↔
        ∀ p ∈ [((2 : ℚ), (2 : ℚ))], p.2 = p.1) :=
  accuracy_metrics_nonneg_zero_iff [(2, 2)]

/-- C6: a row whose actual value is zero contributes nothing to the MAPE
mean — prepending it leaves MAPE and the scored rows unchanged — and is
instead counted separately among the zero-actual rows. -/
theorem mape_excludes_zero_actual (rows : List (ℚ × ℚ)) (q : ℚ × ℚ) (hq : q.1 = 0) :
    mape (q :: rows) = mape rows ∧
    zeroActualCount (q :: rows) = zeroActualCount rows + 1 ∧
    scoredRows (q :: rows) = scoredRows rows := by
  refine ⟨?_, ?_, ?_⟩ <;> simp [mape, zeroActualCount, scoredRows, List.filter_cons, hq]

/-- C6 witness: prepending the zero-actual row (0, 5) to a one-row
evaluation set leaves MAPE unchanged and bumps the separate count. -/
theorem mape_excludes_zero_actual_witness :
    mape [((0 : ℚ), (5 : ℚ)), (1, 3)] = mape [((1 : ℚ), (3 : ℚ))] ∧
    zeroActualCount [((0 : ℚ), (5 : ℚ)), (1, 3)] = zeroActualCount [((1 : ℚ), (3 : ℚ))] + 1 ∧
    scoredRows [((0 : ℚ), (5 : ℚ)), (1, 3)] = scoredRows [((1 : ℚ), (3 : ℚ))] :=
  mape_excludes_zero_actual [(1, 3)] (0, 5) rfl

/-! ## Claims about the Time Index Builder -/

/-- C8: whenever the Time Index Builder succeeds, its output periods are
strictly ascending with no duplicates, cover exactly the requested monthly
range with no gaps, and every month absent from the raw input carries a null
actual value. -/
theorem buildIndex_invariants (rows : List (ℕ × ℚ)) (start stop : ℕ)
    (out : List (ℕ × Option ℚ)) (h : buildIndex rows start stop = Except.ok out) :
    List.Pairwise (· < ·) (out.map Prod.fst) ∧
    (out.map Prod.fst).Nodup ∧
    (∀ p : ℕ, p ∈ out.map Prod.fst ↔ start ≤ p ∧ p ≤ stop) ∧
    (∀ pr ∈ out, (∀ v : ℚ, (pr.1, v) ∉ rows) → pr.2 = none) := by
  simp only [buildIndex] at h
  split at h
  · exact absurd h (by simp)
  split at h
  · exact absurd h (by simp)
  rename_i hmin hconf
  have h12 : minPeriods ≤ stop + 1 - start := Nat.not_lt.mp hmin
  have hout : out = (List.range (stop + 1 - start)).map
      (fun i => (start + i, lookupVal rows (start + i))) := by
    cases h
    rfl
  subst hout
  have hfst : ((List.range (stop + 1 - start)).map
      (fun i => (start + i, lookupVal rows (start + i)))).map Prod.fst
      = (List.range (stop + 1 - start)).map (fun i => start + i) := by
    simp [List.map_map, Function.comp]
  have hpair : List.Pairwise (· < ·) (((List.range (stop + 1 - start)).map
      (fun i => (start + i, lookupVal rows (start + i)))).map Prod.fst) := by
    rw [hfst]
    exact (List.pairwise_lt_range _).map _ (fun a b hab => by omega)
  refine ⟨hpair, hpair.imp (fun hab => Nat.ne_of_lt hab), ?_, ?_⟩
  · intro p
    rw [hfst]
    simp only [List.mem_map, List.mem_range]
    constructor
    · rintro ⟨i, hi, rfl⟩
      have hmp : (12 : ℕ) ≤ stop + 1 - start := h12
      omega
    · rintro ⟨hsp, hps⟩
      exact ⟨p - start, by omega, by omega⟩
  · rintro pr hpr hnone
    rcases List.mem_map.mp hpr with ⟨i, _, rfl⟩
    show lookupVal rows (start + i) = none
    rw [lookupVal, Option.map_eq_none', List.find?_eq_none]
    intro x hx
    simp only [decide_eq_true_eq]
    intro hxe
    have hmem : (start + i, x.2) ∈ rows := by
      have hxx : ((start + i : ℕ), x.2) = x := by
        rw [← hxe]
      rwa [hxx]
    exact hnone x.2 hmem

/-- C8 witness: building the index on a single recorded month over a
twelve-month range yields the gap-free grid with nulls everywhere except
the recorded month. -/
theorem buildIndex_invariants_witness :
    List.Pairwise (· < ·) (c8Out.map Prod.fst) ∧
    (c8Out.map Prod.fst).Nodup ∧
    (∀ p : ℕ, p ∈ c8Out.map Prod.fst ↔ 0 ≤ p ∧ p ≤ 11) ∧
    (∀ pr ∈ c8Out, (∀ v : ℚ, (pr.1, v) ∉ [((5 : ℕ), (7 : ℚ))]) → pr.2 = none) :=
  buildIndex_invariants [(5, 7)] 0 11 c8Out (by with_unfolding_all rfl)

/-! ## The constant-series pipeline example -/

/-- The fitted constant-series model predicts exactly 100 at every period
and for every lag state, because all coefficients but the intercept are
zero. -/
lemma predict_c4 (t : ℕ) (lags : List ℚ) : predict c4Model t lags = 100 := by
  have hr : List.range 1 = [0] := rfl
  simp [predict, c4Model, featureVec, dotProd, hr, List.zipWith_cons_cons]

/-- The recursive projection of the fitted constant-series model is the
constant sequence 100. -/
lemma projectFrom_c4 (n : ℕ) : ∀ (t : ℕ) (lags : List ℚ),
    projectFrom c4Model t lags n = List.replicate n 100 := by
  induction n with
  | zero =>
    intro t lags
    simp [projectFrom]
  | succ k ih =>
    intro t lags
    simp [projectFrom, predict_c4, ih, List.replicate_succ]

set_option maxRecDepth 10000 in
/-- C4: on the 24-month constant series of value 100 at lag depth zero, the
degree-1 fit returns the intercept-100 model, the forecast is exactly 100
at every future period of any accepted horizon, and the in-sample accuracy
report on the held-out rows has MAPE zero and RMSE zero. -/
theorem constant_series_pipeline :
    c4FitR = Except.ok c4Model ∧
    (∀ h : ℕ, h ≤ 24 → forecast c4Model 24 [] h = Except.ok (List.replicate h 100)) ∧
    mape c4Pairs = 0 ∧ rmse c4Pairs = 0 := by
  refine ⟨by with_unfolding_all rfl, ?_, by with_unfolding_all rfl, ?_⟩
  · intro h hh
    rw [forecast, if_neg (Nat.not_lt.mpr hh), projectFrom_c4 h 24 []]
  · have hmse : mse c4Pairs = 0 := by with_unfolding_all rfl
    rw [rmse, hmse]
    simp

/-- C4 witness: the twelve-month forecast of the fitted constant-series
model is the constant list 100. -/
theorem constant_series_pipeline_witness :
    forecast c4Model 24 [] 12 = Except.ok (List.replicate 12 100) :=
  constant_series_pipeline.2.1 12 (by decide)
